import Mathlib

/-!
# gcptool-project: greeter handler and fleet CLI

A shallow embedding of `function/function.go` (the HTTP greeter) and of
`gcptool/main.go` (the command-line tool), followed by the properties proved
about them.

Conventions of the embedding:

* Go strings are Lean `String`s.
* Everything the code obtains from outside (the clock, the environment, the
  results of subprocesses and of remote calls) is an explicit argument.
* Output is an explicit trace of `Event`s, in program order.
* `log.Fatal`, `os.Exit` and a run-time panic end the trace with an `Outcome`.
-/

set_option autoImplicit false

namespace Gcptool

/-! ## Greeter handler (`function/function.go`) -/

/-- The type `url.Values`: a Go `map[string][]string`; a missing key maps to the empty slice. -/
abbrev Values := String → List String

/-- The method `url.Values.Get`: the first value stored under the key, or `""` when there is none. -/
def Values.Get (v : Values) (key : String) : String :=
  match v key with
  | [] => ""
  | x :: _ => x

/-- The parts of `*http.Request` that `HandleRequest` reads. -/
structure Request where
  /-- The field `r.Method`: the HTTP verb. -/
  Method : String
  /-- The result of `r.URL.Query()`. -/
  Query : Values

/-- State of an `http.ResponseWriter`: the header map, the status line once it
has been sent, and the JSON documents written to the body (each one an object
given by its fields, in the key order Go's encoder emits for a map: sorted). -/
structure ResponseWriter where
  header : List (String × String)
  status : Option Nat
  body : List (List (String × String))

/-- A fresh response writer: nothing set, nothing written. -/
def ResponseWriter.fresh : ResponseWriter :=
  { header := [], status := none, body := [] }

/-- The call `w.Header().Set(key, value)`: replaces any values stored under the key. -/
def ResponseWriter.setHeader (w : ResponseWriter) (key value : String) : ResponseWriter :=
  { w with header := (key, value) :: w.header.filter (fun kv => kv.1 != key) }

/-- The call `w.Header().Get(key)`. -/
def ResponseWriter.getHeader (w : ResponseWriter) (key : String) : String :=
  match w.header.lookup key with
  | some v => v
  | none => ""

/-- A body write: the first write sends the status line with `200` unless a
status was written before (the handler never calls `WriteHeader`). -/
def ResponseWriter.write (w : ResponseWriter) (doc : List (String × String)) : ResponseWriter :=
  { w with
    status := (match w.status with
      | none => some 200
      | some c => some c),
    body := w.body ++ [doc] }

/-- The greeting built by `fmt.Sprintf("Hello, %s! From GCP Cloud Function", name)`. -/
def greeting (name : String) : String :=
  "Hello, " ++ name ++ "! From GCP Cloud Function"

/-- A value of `time.Time`, kept abstract: the instant in Unix nanoseconds. -/
structure Time where
  unixNano : Int
  deriving DecidableEq, Repr

/-- The layout constant `time.RFC3339`. -/
def RFC3339 : String := "2006-01-02T15:04:05Z07:00"

/-- The handler `HandleRequest`. `now` is the value of `time.Now()` and
`Format t layout` stands for the library method `t.Format(layout)`. The
response map has the keys `message`, `time`, `method`; the encoder writes them
sorted by key. -/
def HandleRequest (Format : Time → String → String) (now : Time)
    (w : ResponseWriter) (r : Request) : ResponseWriter :=
  let w := w.setHeader "Content-Type" "application/json"
  let name := r.Query.Get "name"
  let name := if name = "" then "World" else name
  w.write
    [("message", greeting name),
     ("method", r.Method),
     ("time", Format now RFC3339)]

/-- The field `key` of the single JSON object in the response body, if the
body is a single object that has the field. -/
def ResponseWriter.field (w : ResponseWriter) (key : String) : Option String :=
  match w.body with
  | [doc] => doc.lookup key
  | _ => none

/-- The substring relation the tests check with `contains`: `sub` occurs somewhere in `s`. -/
def Contains (s sub : String) : Prop :=
  ∃ pre post : String, s = pre ++ sub ++ post

/-! ## Fleet CLI: `main` (`gcptool/main.go`) -/

/-- The struct `Config`. -/
structure Config where
  ProjectID : String
  Region : String
  deriving DecidableEq, Repr

/-- A command line after `flag.Parse()` has succeeded, with the environment. -/
structure Invocation where
  /-- The flag `-h`. -/
  help : Bool
  /-- The flag `-p` (default `""`). -/
  projectID : String
  /-- The flag `-r` (default `"us-central1"`). -/
  region : String
  /-- The result of `flag.Args()`: the positional arguments. -/
  args : List String
  /-- The function `os.Getenv`. -/
  getenv : String → String

/-- What `main` does with an invocation. -/
inductive MainResult where
  /-- The call `flag.Usage()` preceded by the given lines on stdout, then `os.Exit(code)`. -/
  | usageExit (stdout : List String) (code : Nat)
  /-- The call `log.Fatal(msg)`: the diagnostic is logged and the process exits with status 1. -/
  | fatal (msg : String)
  /-- The call `handleDeploy(config, name, options)`. -/
  | deploy (config : Config) (name : String) (options : List String)
  /-- The call `handleDescribe(config, name)`. -/
  | describe (config : Config) (name : String)
  /-- The call `handleList(config)`. -/
  | list (config : Config)
  deriving DecidableEq, Repr

/-- The diagnostic of a missing project ID. -/
def projectRequiredMsg : String :=
  "Project ID required. Use -p flag or set GCP_PROJECT_ID environment variable"

/-- The `switch command` statement of `main`, with `command = flag.Args()[0]`
and `args = flag.Args()[1:]`. -/
def dispatch (config : Config) (command : String) (args : List String) : MainResult :=
  if command = "deploy" then
    match args with
    | [] => .fatal "Function name required for deploy command"
    | name :: options => .deploy config name options
  else if command = "describe" then
    match args with
    | [] => .fatal "Function name required for describe command"
    | name :: _ => .describe config name
  else if command = "list" then
    .list config
  else
    .usageExit ["Unknown command: " ++ command ++ "\n"] 1

/-- The function `main`, from after `flag.Parse()`. -/
def main (inv : Invocation) : MainResult :=
  if inv.help || inv.args.length == 0 then
    .usageExit [] 0
  else
    -- Get project ID from flag or environment
    let projectID := if inv.projectID = "" then inv.getenv "GCP_PROJECT_ID" else inv.projectID
    if inv.projectID = "" ∧ projectID = "" then
      .fatal projectRequiredMsg
    else
      let config : Config := { ProjectID := projectID, Region := inv.region }
      match inv.args with
      | [] => .usageExit [] 0
      | command :: args => dispatch config command args

/-- The project ID that config resolution selects: the `-p` value when
non-empty, otherwise the `GCP_PROJECT_ID` environment variable. -/
def resolvedProjectID (inv : Invocation) : String :=
  if inv.projectID ≠ "" then inv.projectID else inv.getenv "GCP_PROJECT_ID"

/-- The Config a handler was called with, if `main` called one. -/
def MainResult.handlerConfig : MainResult → Option Config
  | .deploy c _ _ => some c
  | .describe c _ => some c
  | .list c => some c
  | _ => none

/-! ## Fleet CLI: `handleDeploy` -/

/-- The local variables that the option loop of `handleDeploy` assigns. -/
structure DeployOptions where
  environment : String
  version : String
  clean : Bool
  source : String
  deriving DecidableEq, Repr

/-- The values the locals hold before the loop. -/
def DeployOptions.initial : DeployOptions :=
  { environment := "prod", version := "", clean := false, source := "./function" }

/-- One iteration of `for i, opt := range options`, with `opt = options[i]`:
the `switch opt` with its reads of `options[i+1]` under the guard
`i+1 < len(options)`. Every slice read is checked: `none` is the
index-out-of-range panic. -/
def optionStep (options : List String) (st : DeployOptions) (i : Nat) : Option DeployOptions :=
  match options.get? i with
  | none => none
  | some opt =>
    if opt = "-e" then
      if i + 1 < options.length then
        (options.get? (i + 1)).map (fun value => { st with environment := value })
      else some st
    else if opt = "-v" then
      if i + 1 < options.length then
        (options.get? (i + 1)).map (fun value => { st with version := value })
      else some st
    else if opt = "-c" then
      some { st with clean := true }
    else if opt = "-s" then
      if i + 1 < options.length then
        (options.get? (i + 1)).map (fun value => { st with source := value })
      else some st
    else
      some st

/-- The option loop of `handleDeploy`: indices `0 .. len(options)-1` in order;
`none` is a panic in some iteration. -/
def parseOptions (options : List String) : Option DeployOptions :=
  (List.range options.length).foldlM (optionStep options) DeployOptions.initial

/-- Reference definition, written from the specification: the token
immediately following the last occurrence of `flag` that has a following
token, and `dflt` when there is no such occurrence. -/
def valueAfterLast (flag dflt : String) (options : List String) : String :=
  match ((List.range options.length).filter
      (fun i => decide (options.get? i = some flag) && decide (i + 1 < options.length))).getLast? with
  | some i => options.getD (i + 1) dflt
  | none => dflt

/-- Reference definition of the parsed options, written from the specification. -/
def parseOptionsSpec (options : List String) : DeployOptions :=
  { environment := valueAfterLast "-e" "prod" options,
    version := valueAfterLast "-v" "" options,
    clean := decide ("-c" ∈ options),
    source := valueAfterLast "-s" "./function" options }

/-- Observable actions of the CLI handlers, in program order. -/
inductive Event where
  /-- Text written to stdout by `fmt.Printf` / `fmt.Println`. -/
  | print (text : String)
  /-- Text logged by `log.Printf`. -/
  | log (text : String)
  /-- A subprocess started by `exec.Cmd.Run` or `exec.Cmd.Output`: its argument
  vector and its working directory (`""` is the current directory). -/
  | exec (argv : List String) (dir : String)
  deriving DecidableEq, Repr

/-- How a handler ends. -/
inductive Outcome where
  /-- The handler returns to `main`. -/
  | returned
  /-- The call `log.Fatal` / `log.Fatalf`: the message is logged, exit status 1. -/
  | fatal (msg : String)
  /-- A run-time panic (index out of range). -/
  | panic
  deriving DecidableEq, Repr

/-- Results of the subprocesses `handleDeploy` may start; each is started at
most once. `none` is success for `Run`; `Output` gives stdout or an error. -/
structure DeployWorld where
  /-- Error of `go clean -cache`, if it fails. -/
  cleanErr : Option String
  /-- Error of `gcloud functions deploy ...`, if it fails. -/
  deployErr : Option String
  /-- Result of `gcloud functions describe ...`: its stdout, or an error. -/
  describeOut : Except String String

/-- The predicate `unicode.IsSpace`. -/
def isSpace (c : Char) : Bool :=
  c = '\t' || c = '\n' || c.val = 0x0B || c.val = 0x0C || c = '\r' || c = ' ' ||
  c.val = 0x85 || c.val = 0xA0 || c.val = 0x1680 ||
  (0x2000 ≤ c.val && c.val ≤ 0x200A) ||
  c.val = 0x2028 || c.val = 0x2029 || c.val = 0x202F || c.val = 0x205F || c.val = 0x3000

/-- The function `strings.TrimSpace`. -/
def TrimSpace (s : String) : String :=
  String.mk ((s.data.dropWhile isSpace).reverse.dropWhile isSpace).reverse

/-- The slice `deployCmd` that `handleDeploy` builds and executes. -/
def deployCmd (config : Config) (functionName : String) (o : DeployOptions) : List String :=
  let deployCmd :=
    ["gcloud", "functions", "deploy", functionName,
     "--gen2",
     "--runtime=go121",
     "--region=" ++ config.Region,
     "--source=" ++ o.source,
     "--entry-point=HandleRequest",
     "--trigger=https",
     "--allow-unauthenticated",
     "--project=" ++ config.ProjectID]
  let deployCmd :=
    if o.environment ≠ "" then deployCmd ++ ["--update-labels=environment=" ++ o.environment]
    else deployCmd
  let deployCmd :=
    if o.version ≠ "" then deployCmd ++ ["--update-labels=version=" ++ o.version]
    else deployCmd
  deployCmd

/-- The argument vector of the post-deploy URL lookup. -/
def describeCmd (config : Config) (functionName : String) : List String :=
  ["gcloud", "functions", "describe", functionName,
   "--region=" ++ config.Region,
   "--project=" ++ config.ProjectID,
   "--format=value(serviceConfig.uri)"]

/-- The argument vector of the clean step. -/
def cleanCmd : List String := ["go", "clean", "-cache"]

/-- The function `handleDeploy`: the trace of its actions and how it ends. -/
def handleDeploy (world : DeployWorld) (config : Config) (functionName : String)
    (options : List String) : List Event × Outcome :=
  let t : List Event :=
    [.print ("🚀 Deploying function '" ++ functionName ++ "' to project '" ++
      config.ProjectID ++ "'...\n")]
  -- Parse deployment options
  match parseOptions options with
  | none => (t, .panic)
  | some o =>
    -- Clean and rebuild if requested
    let t :=
      if o.clean then
        let t := t ++ [.print "🧹 Cleaning and rebuilding...\n", .exec cleanCmd o.source]
        match world.cleanErr with
        | some err => t ++ [.log ("Warning: Clean failed: " ++ err)]
        | none => t
      else t
    -- Execute deployment
    let t := t ++ [.exec (deployCmd config functionName o) ""]
    match world.deployErr with
    | some err => (t, .fatal ("❌ Deployment failed: " ++ err))
    | none =>
      let t := t ++ [.print ("✅ Function '" ++ functionName ++ "' deployed successfully!\n")]
      -- Get and display function URL
      let t := t ++ [.exec (describeCmd config functionName) ""]
      match world.describeOut with
      | .ok output =>
        let url := TrimSpace output
        if url ≠ "" then (t ++ [.print ("🌐 Function URL: " ++ url ++ "\n")], .returned)
        else (t, .returned)
      | .error _ => (t, .returned)

/-! ## Fleet CLI: remote resources, `handleDescribe`, `handleList` -/

/-- The message `functionspb.HttpsTrigger` (the field read here). -/
structure HttpsTrigger where
  Url : String
  deriving DecidableEq, Repr

/-- The message `functionspb.EventTrigger`. -/
structure EventTrigger where
  EventType : String
  Resource : String
  deriving DecidableEq, Repr

/-- The message `functionspb.CloudFunction`, as far as the handlers read it.
`Status` is the rendering `function.Status.String()`, `UpdateTime` the value
`function.UpdateTime.AsTime()`; `HttpsTrigger` and `EventTrigger` are the
results of `GetHttpsTrigger()` and `GetEventTrigger()` (`none` is `nil`);
`Labels` is `GetLabels()` (`none` is the nil map). -/
structure CloudFunction where
  Name : String
  Status : String
  Runtime : String
  UpdateTime : Time
  HttpsTrigger : Option HttpsTrigger
  EventTrigger : Option EventTrigger
  Labels : Option (List (String × String))
  SourceArchiveUrl : String
  deriving DecidableEq, Repr

/-- The struct `Function`. -/
structure Function where
  Name : String
  Status : String
  Runtime : String
  Trigger : String
  UpdateTime : Time
  Version : String
  deriving DecidableEq, Repr

/-- The call `strings.Split(s, sep)` for a one-character separator. -/
def Split (s : String) (sep : Char) : List String :=
  (s.data.splitOn sep).map String.mk

/-- The call `strings.Join(elems, sep)` for a one-character separator: the
inverse of `Split`, used to state what the segments of a name are. -/
def Join (elems : List String) (sep : Char) : String :=
  String.mk ([sep].intercalate (elems.map String.data))

/-- The expression `strings.Split(name, "/")[5]`; `none` is the index-out-of-range panic. -/
def functionNameOf (name : String) : Option String :=
  (Split name '/').get? 5

/-- Trigger classification as written in `handleDescribe`. -/
def describeTrigger (function : CloudFunction) : String :=
  if function.HttpsTrigger ≠ none then "HTTPS"
  else if function.EventTrigger ≠ none then "Event"
  else "Unknown"

/-- Trigger classification as written in `handleList`. -/
def listTrigger (function : CloudFunction) : String :=
  if function.HttpsTrigger ≠ none then "HTTPS"
  else if function.EventTrigger ≠ none then "Event"
  else "Unknown"

/-- The label lookup both handlers perform: `labels["version"]` when the map is
non-nil and has the key, else the zero value `""`. -/
def versionLabel (function : CloudFunction) : String :=
  match function.Labels with
  | some labels =>
    (match labels.lookup "version" with
     | some v => v
     | none => "")
  | none => ""

/-- The record `funcInfo` that `handleDescribe` builds. -/
def describeInfo (function : CloudFunction) : Function :=
  { Name := function.Name,
    Status := function.Status,
    Runtime := function.Runtime,
    Trigger := describeTrigger function,
    UpdateTime := function.UpdateTime,
    Version := versionLabel function }

/-- The record `funcInfo` that one iteration of `handleList` builds; `none` is
the panic of the name extraction. -/
def listInfo (function : CloudFunction) : Option Function :=
  match functionNameOf function.Name with
  | none => none
  | some name =>
    some
      { Name := name,
        Status := function.Status,
        Runtime := function.Runtime,
        Trigger := listTrigger function,
        UpdateTime := function.UpdateTime,
        Version := versionLabel function }

/-- What `handleDescribe` gets from outside: the result of creating the client
and of `client.GetFunction` for a resource path. -/
structure DescribeWorld where
  clientErr : Option String
  getFunction : String → Except String CloudFunction

/-- The function `handleDescribe`. -/
def handleDescribe (Format : Time → String → String) (world : DescribeWorld)
    (config : Config) (functionName : String) : List Event × Outcome :=
  match world.clientErr with
  | some err => ([], .fatal ("Failed to create client: " ++ err))
  | none =>
    let functionPath := "projects/" ++ config.ProjectID ++ "/locations/" ++ config.Region ++
      "/functions/" ++ functionName
    match world.getFunction functionPath with
    | .error err => ([], .fatal ("Failed to get function: " ++ err))
    | .ok function =>
      let funcInfo := describeInfo function
      let t : List Event := [.print "📋 Function Details:\n"]
      match functionNameOf funcInfo.Name with
      | none => (t, .panic)
      | some name =>
        let t := t ++
          [.print ("Name: " ++ name ++ "\n"),
           .print ("Status: " ++ funcInfo.Status ++ "\n"),
           .print ("Runtime: " ++ funcInfo.Runtime ++ "\n"),
           .print ("Trigger: " ++ funcInfo.Trigger ++ "\n"),
           .print ("Last Updated: " ++ Format funcInfo.UpdateTime RFC3339 ++ "\n")]
        let t := if funcInfo.Version ≠ "" then t ++ [.print ("Version: " ++ funcInfo.Version ++ "\n")]
          else t
        let t :=
          match function.HttpsTrigger with
          | some h => t ++ [.print ("URL: " ++ h.Url ++ "\n")]
          | none => t
        let t := if function.SourceArchiveUrl ≠ "" then
            t ++ [.print ("Source: " ++ function.SourceArchiveUrl ++ "\n")]
          else t
        (t, .returned)

/-- What `handleList` gets from outside: the result of creating the client and,
for a parent path, the records successive `it.Next()` calls yield followed by
what ends the iteration: `iterator.Done` (`none`) or another error. -/
structure ListWorld where
  clientErr : Option String
  listFunctions : String → List CloudFunction × Option String

/-- The `for` loop of `handleList`: appends one `Function` per yielded record
to `functions`; stops at `iterator.Done`, at an error, or at a panic. -/
def listLoop : List CloudFunction → Option String → List Function → Except Outcome (List Function)
  | [], none, functions => .ok functions
  | [], some err, _ => .error (.fatal ("Failed to list functions: " ++ err))
  | function :: rest, final, functions =>
    match listInfo function with
    | none => .error .panic
    | some funcInfo => listLoop rest final (functions ++ [funcInfo])

/-- The verb `%-Ns` of `fmt.Printf`: left-justified, padded with spaces to `width` runes. -/
def padRight (width : Nat) (s : String) : String :=
  s ++ String.mk (List.replicate (width - s.length) ' ')

/-- The format `"%-20s %-10s %-10s %-8s %-10s %s\n"` applied to six strings. -/
def tableLine (a b c d e f : String) : String :=
  padRight 20 a ++ " " ++ padRight 10 b ++ " " ++ padRight 10 c ++ " " ++ padRight 8 d ++ " " ++
    padRight 10 e ++ " " ++ f ++ "\n"

/-- The line `handleList` prints for one element of `functions`. -/
def listRow (Format : Time → String → String) (f : Function) : String :=
  let version := if f.Version = "" then "n/a" else f.Version
  tableLine f.Name f.Status f.Runtime f.Trigger version (Format f.UpdateTime "2006-01-02 15:04")

/-- The message for an empty result. -/
def noFunctionsLine (config : Config) : String :=
  "No functions found in project '" ++ config.ProjectID ++ "' region '" ++ config.Region ++ "'\n"

/-- The title line of the table. -/
def listTitle (config : Config) : String :=
  "📦 Cloud Functions in project '" ++ config.ProjectID ++ "':\n\n"

/-- The header line of the table. -/
def listHeader : String :=
  tableLine "NAME" "STATUS" "RUNTIME" "TRIGGER" "VERSION" "LAST UPDATED"

/-- The separator line: `strings.Repeat("-", 90)` and a newline. -/
def listSeparator : String :=
  String.mk (List.replicate 90 '-') ++ "\n"

/-- The function `handleList`. -/
def handleList (Format : Time → String → String) (world : ListWorld) (config : Config) :
    List Event × Outcome :=
  match world.clientErr with
  | some err => ([], .fatal ("Failed to create client: " ++ err))
  | none =>
    let parent := "projects/" ++ config.ProjectID ++ "/locations/" ++ config.Region
    let it := world.listFunctions parent
    match listLoop it.1 it.2 [] with
    | .error out => ([], out)
    | .ok functions =>
      if functions.length = 0 then
        ([.print (noFunctionsLine config)], .returned)
      else
        let t : List Event :=
          [.print (listTitle config), .print listHeader, .print listSeparator]
        (functions.foldl (fun t f => t ++ [.print (listRow Format f)]) t, .returned)

/-! ## Auxiliary definitions for the proofs, and concrete inputs for the examples -/

/-- A formatter standing in for `time.Time.Format` in the examples: it renders
the instant as its number followed by the layout. -/
def exampleFormat : Time → String → String :=
  fun t layout => toString t.unixNano ++ "@" ++ layout

/-- The request `GET /?name=Alice`. -/
def requestAlice : Request :=
  { Method := "GET", Query := fun key => if key = "name" then ["Alice"] else [] }

/-- The request `POST /?name=`. -/
def requestEmptyName : Request :=
  { Method := "POST", Query := fun key => if key = "name" then [""] else [] }

/-- The command line `gcptool bogus` with `GCP_PROJECT_ID` unset. -/
def invUnknownNoProject : Invocation :=
  { help := false, projectID := "", region := "us-central1", args := ["bogus"],
    getenv := fun _ => "" }

/-- The command line `gcptool -h -p demo bogus`. -/
def invHelpUnknown : Invocation :=
  { help := true, projectID := "demo", region := "us-central1", args := ["bogus"],
    getenv := fun _ => "" }

/-- The command line `gcptool -p demo deploy` (no function name). -/
def invDeployNoName : Invocation :=
  { help := false, projectID := "demo", region := "us-central1", args := ["deploy"],
    getenv := fun _ => "" }

/-- The command line `gcptool -p demo bogus`. -/
def invUnknown : Invocation :=
  { help := false, projectID := "demo", region := "us-central1", args := ["bogus"],
    getenv := fun _ => "" }

/-- The command line `gcptool` with no arguments and `GCP_PROJECT_ID` unset. -/
def invBare : Invocation :=
  { help := false, projectID := "", region := "us-central1", args := [],
    getenv := fun _ => "" }

/-- The command line `gcptool list` with `GCP_PROJECT_ID=envproj`. -/
def invListEnv : Invocation :=
  { help := false, projectID := "", region := "us-central1", args := ["list"],
    getenv := fun key => if key = "GCP_PROJECT_ID" then "envproj" else "" }

/-- The reference value `valueAfterLast`, restricted to the occurrences of
`flag` among the first `n` indices; used to state the loop invariant. -/
def valuePrefix (flag dflt : String) (options : List String) (n : Nat) : String :=
  match ((List.range n).filter
      (fun i => decide (options.get? i = some flag) && decide (i + 1 < options.length))).getLast? with
  | some i => options.getD (i + 1) dflt
  | none => dflt

/-- The events of the clean step of `handleDeploy`, for parsed options `o`. -/
def cleanEvents (world : DeployWorld) (o : DeployOptions) : List Event :=
  if o.clean then
    [.print "🧹 Cleaning and rebuilding...\n", .exec cleanCmd o.source] ++
      (match world.cleanErr with
        | some err => [.log ("Warning: Clean failed: " ++ err)]
        | none => [])
  else []

/-- What `handleDeploy` does after the deploy subprocess has been run. -/
def afterDeploy (world : DeployWorld) (config : Config) (functionName : String) :
    List Event × Outcome :=
  match world.deployErr with
  | some err => ([], .fatal ("❌ Deployment failed: " ++ err))
  | none =>
    ([.print ("✅ Function '" ++ functionName ++ "' deployed successfully!\n"),
      .exec (describeCmd config functionName) ""] ++
      (match world.describeOut with
        | .ok output =>
          if TrimSpace output ≠ "" then [.print ("🌐 Function URL: " ++ TrimSpace output ++ "\n")]
          else []
        | .error _ => []),
     .returned)

/-- A config used in the examples. -/
def demoConfig : Config := { ProjectID := "demo", Region := "us-central1" }

/-- A world in which the clean step fails, the deploy succeeds and the URL lookup fails. -/
def worldCleanFails : DeployWorld :=
  { cleanErr := some "exit status 1", deployErr := none, describeOut := .error "exit status 1" }

/-- A world in which the deploy step fails. -/
def worldDeployFails : DeployWorld :=
  { cleanErr := none, deployErr := some "exit status 1", describeOut := .ok "https://f.example\n" }

/-- A remote record with the given resource name, used in the examples. -/
def exampleFunction (name : String) : CloudFunction :=
  { Name := name, Status := "ACTIVE", Runtime := "go121", UpdateTime := ⟨0⟩,
    HttpsTrigger := some { Url := "https://f.example" }, EventTrigger := none,
    Labels := some [("version", "3")], SourceArchiveUrl := "" }

/-- A remote record on which both trigger accessors return a value. -/
def exampleBothTriggers : CloudFunction :=
  { Name := "projects/demo/locations/us-central1/functions/both", Status := "ACTIVE",
    Runtime := "go121", UpdateTime := ⟨0⟩,
    HttpsTrigger := some { Url := "https://f.example" },
    EventTrigger := some { EventType := "google.pubsub.topic.publish", Resource := "t" },
    Labels := none, SourceArchiveUrl := "" }

/-- A list world whose iterator yields one record named "hello", then `Done`. -/
def worldListShort : ListWorld :=
  { clientErr := none, listFunctions := fun _ => ([exampleFunction "hello"], none) }

/-- A list world whose iterator yields one well-named record, then an error. -/
def worldListError : ListWorld :=
  { clientErr := none,
    listFunctions := fun _ =>
      ([exampleFunction "projects/demo/locations/us-central1/functions/hello"],
        some "rpc error") }

/-- A list world whose iterator yields two well-named records, then `Done`. -/
def worldListTwo : ListWorld :=
  { clientErr := none,
    listFunctions := fun _ =>
      ([exampleFunction "projects/demo/locations/us-central1/functions/b",
        exampleFunction "projects/demo/locations/us-central1/functions/a"], none) }

/-! ## Properties of the greeter handler -/

theorem greeting_contains (n : String) : Contains (greeting n) ("Hello, " ++ n ++ "!") := by
  refine ⟨"", " From GCP Cloud Function", ?_⟩
  apply String.ext
  simp [greeting, String.data_append]

theorem Get_eq_empty_iff (v : Values) (key : String) :
    v.Get key = "" ↔ (v key = [] ∨ ∃ rest, v key = "" :: rest) := by
  unfold Values.Get
  cases h : v key with
  | nil => simp
  | cons x rest => simp

/-- C1: the `message` of the response is determined by the `name` query
parameter alone. When `name` is absent or empty it is
"Hello, World! From GCP Cloud Function" (which contains "Hello, World!"); for a
non-empty name `n` it is "Hello, n! From GCP Cloud Function" (which contains
"Hello, n!"); two requests with the same `name` get the same message whatever
the clock, the verb and the other parameters. -/
theorem HandleRequest_message (Format : Time → String → String) (now : Time) (r : Request) :
    ((r.Query "name" = [] ∨ ∃ rest, r.Query "name" = "" :: rest) →
      (HandleRequest Format now ResponseWriter.fresh r).field "message"
          = some "Hello, World! From GCP Cloud Function"
        ∧ Contains "Hello, World! From GCP Cloud Function" "Hello, World!")
    ∧ (∀ n : String, n ≠ "" → r.Query.Get "name" = n →
      (HandleRequest Format now ResponseWriter.fresh r).field "message"
          = some ("Hello, " ++ n ++ "! From GCP Cloud Function")
        ∧ Contains ("Hello, " ++ n ++ "! From GCP Cloud Function") ("Hello, " ++ n ++ "!"))
    ∧ (∀ (Format2 : Time → String → String) (now2 : Time) (r2 : Request),
      r2.Query.Get "name" = r.Query.Get "name" →
      (HandleRequest Format2 now2 ResponseWriter.fresh r2).field "message"
        = (HandleRequest Format now ResponseWriter.fresh r).field "message") := by
  refine ⟨?_, ?_, ?_⟩
  · intro h
    have hg : r.Query.Get "name" = "" := (Get_eq_empty_iff _ _).2 h
    refine ⟨?_, greeting_contains "World"⟩
    simp [HandleRequest, ResponseWriter.field, ResponseWriter.write, ResponseWriter.setHeader,
      ResponseWriter.fresh, hg, greeting, List.lookup]
  · intro n hn hg
    refine ⟨?_, greeting_contains n⟩
    simp [HandleRequest, ResponseWriter.field, ResponseWriter.write, ResponseWriter.setHeader,
      ResponseWriter.fresh, hg, hn, greeting, List.lookup]
  · intro Format2 now2 r2 h
    simp [HandleRequest, ResponseWriter.field, ResponseWriter.write, ResponseWriter.setHeader,
      ResponseWriter.fresh, h, List.lookup]

/-- Instance of C1 at `GET /?name=Alice` and at `POST /?name=`. -/
theorem HandleRequest_message_witness :
    ("Alice" ≠ "" ∧ requestAlice.Query.Get "name" = "Alice" ∧
      (HandleRequest exampleFormat ⟨0⟩ ResponseWriter.fresh requestAlice).field "message"
        = some ("Hello, " ++ "Alice" ++ "! From GCP Cloud Function"))
    ∧ ((requestEmptyName.Query "name" = [] ∨ ∃ rest, requestEmptyName.Query "name" = "" :: rest) ∧
      (HandleRequest exampleFormat ⟨0⟩ ResponseWriter.fresh requestEmptyName).field "message"
        = some "Hello, World! From GCP Cloud Function") :=
  ⟨⟨by decide, by decide,
      ((HandleRequest_message exampleFormat ⟨0⟩ requestAlice).2.1 "Alice" (by decide)
        (by decide)).1⟩,
    ⟨Or.inr ⟨[], by decide⟩,
      ((HandleRequest_message exampleFormat ⟨0⟩ requestEmptyName).1
        (Or.inr ⟨[], by decide⟩)).1⟩⟩

/-- C2: for every request the handler returns (it has no error path), the
`Content-Type` header is "application/json", the status sent is 200, and the
body is one JSON object with exactly the fields `message`, `method`, `time`,
where `method` is the request's verb and `time` is the clock value rendered
with the RFC3339 layout. -/
theorem HandleRequest_response (Format : Time → String → String) (now : Time) (r : Request) :
    (HandleRequest Format now ResponseWriter.fresh r).getHeader "Content-Type" = "application/json"
    ∧ (HandleRequest Format now ResponseWriter.fresh r).status = some 200
    ∧ (∃ message : String, (HandleRequest Format now ResponseWriter.fresh r).body =
        [[("message", message), ("method", r.Method), ("time", Format now RFC3339)]])
    ∧ (HandleRequest Format now ResponseWriter.fresh r).field "method" = some r.Method
    ∧ (HandleRequest Format now ResponseWriter.fresh r).field "time" = some (Format now RFC3339)
    ∧ (∀ key : String, ((HandleRequest Format now ResponseWriter.fresh r).field key).isSome = true ↔
        (key = "message" ∨ key = "time" ∨ key = "method")) := by
  refine ⟨?_, ?_, ?_, ?_, ?_, ?_⟩
  · simp [HandleRequest, ResponseWriter.write, ResponseWriter.setHeader, ResponseWriter.fresh,
      ResponseWriter.getHeader, List.lookup]
  · simp [HandleRequest, ResponseWriter.write, ResponseWriter.setHeader, ResponseWriter.fresh]
  · simp [HandleRequest, ResponseWriter.write, ResponseWriter.setHeader, ResponseWriter.fresh]
  · simp [HandleRequest, ResponseWriter.field, ResponseWriter.write, ResponseWriter.setHeader,
      ResponseWriter.fresh, List.lookup]
  · simp [HandleRequest, ResponseWriter.field, ResponseWriter.write, ResponseWriter.setHeader,
      ResponseWriter.fresh, List.lookup]
  · intro key
    simp only [HandleRequest, ResponseWriter.field, ResponseWriter.write,
      ResponseWriter.setHeader, ResponseWriter.fresh, List.nil_append, List.lookup]
    by_cases h1 : key = "message"
    · subst h1; simp
    · by_cases h2 : key = "method"
      · subst h2; simp
      · by_cases h3 : key = "time"
        · subst h3; simp
        · have e1 : (key == "message") = false := by simpa using h1
          have e2 : (key == "method") = false := by simpa using h2
          have e3 : (key == "time") = false := by simpa using h3
          simp [e1, e2, e3, h1, h2, h3]

/-! ## Properties of `main` -/

theorem main_usage_gate (inv : Invocation) (h : inv.help = true ∨ inv.args = []) :
    main inv = .usageExit [] 0 := by
  unfold main
  rcases h with h | h <;> simp [h]

theorem main_past_gate (inv : Invocation) (hh : inv.help = false) (command : String)
    (rest : List String) (ha : inv.args = command :: rest) :
    main inv =
      if resolvedProjectID inv = "" then .fatal projectRequiredMsg
      else dispatch { ProjectID := resolvedProjectID inv, Region := inv.region } command rest := by
  unfold main resolvedProjectID
  by_cases hp : inv.projectID = "" <;> by_cases he : inv.getenv "GCP_PROJECT_ID" = "" <;>
    simp [hh, ha, hp, he]

/-- C3 fails as stated: `gcptool bogus` with no project ID configured ends in
the fatal "Project ID required" diagnostic and prints no usage text;
`gcptool -h -p demo bogus` prints the usage text and exits with status 0; and
`gcptool -p demo deploy` names a known command but no handler is called. -/
theorem main_dispatch_counterexample :
    (invUnknownNoProject.args.head? = some "bogus"
      ∧ "bogus" ∉ ["deploy", "describe", "list"]
      ∧ main invUnknownNoProject = .fatal projectRequiredMsg
      ∧ ∀ out : List String, main invUnknownNoProject ≠ .usageExit out 1)
    ∧ (invHelpUnknown.args.head? = some "bogus" ∧ main invHelpUnknown = .usageExit [] 0)
    ∧ (invDeployNoName.args.head? = some "deploy"
      ∧ main invDeployNoName = .fatal "Function name required for deploy command"
      ∧ (main invDeployNoName).handlerConfig = none) := by
  refine ⟨⟨by decide, by decide, by decide, ?_⟩, ⟨by decide, by decide⟩,
    ⟨by decide, by decide, by decide⟩⟩
  intro out h
  have h2 : main invUnknownNoProject = .fatal projectRequiredMsg := by decide
  rw [h2] at h
  exact MainResult.noConfusion h

/-- C3 (amended): with no positional arguments, or with `-h`, the tool prints
the usage text and exits with status 0. Otherwise, when neither `-p` nor
`GCP_PROJECT_ID` gives a project ID, it ends with the fatal "Project ID
required" diagnostic. Otherwise: a first positional argument that is not
`deploy`, `describe` or `list` gives "Unknown command", the usage text and
exit status 1; `list` calls `handleList`; `deploy` and `describe` call their
handler when a function name follows and end with a fatal "Function name
required" diagnostic when none does. -/
theorem main_dispatch (inv : Invocation) :
    (inv.args = [] → main inv = .usageExit [] 0)
    ∧ (inv.help = true → main inv = .usageExit [] 0)
    ∧ (∀ (command : String) (rest : List String),
        inv.help = false → inv.args = command :: rest →
        (resolvedProjectID inv = "" → main inv = .fatal projectRequiredMsg)
        ∧ (resolvedProjectID inv ≠ "" →
          (command ≠ "deploy" → command ≠ "describe" → command ≠ "list" →
            main inv = .usageExit ["Unknown command: " ++ command ++ "\n"] 1)
          ∧ (command = "list" →
            main inv = .list { ProjectID := resolvedProjectID inv, Region := inv.region })
          ∧ (command = "deploy" → ∀ (name : String) (options : List String),
            rest = name :: options →
            main inv =
              .deploy { ProjectID := resolvedProjectID inv, Region := inv.region } name options)
          ∧ (command = "deploy" → rest = [] →
            main inv = .fatal "Function name required for deploy command")
          ∧ (command = "describe" → ∀ (name : String) (more : List String),
            rest = name :: more →
            main inv = .describe { ProjectID := resolvedProjectID inv, Region := inv.region } name)
          ∧ (command = "describe" → rest = [] →
            main inv = .fatal "Function name required for describe command"))) := by
  refine ⟨fun h => main_usage_gate inv (Or.inr h), fun h => main_usage_gate inv (Or.inl h), ?_⟩
  intro command rest hh ha
  rw [main_past_gate inv hh command rest ha]
  refine ⟨fun hp => by simp [hp], fun hp => ⟨?_, ?_, ?_, ?_, ?_, ?_⟩⟩
  · intro h1 h2 h3; simp [hp, dispatch, h1, h2, h3]
  · intro h; subst h; simp [hp, dispatch]
  · intro h name options hr; subst h; subst hr; simp [hp, dispatch]
  · intro h hr; subst h; subst hr; simp [hp, dispatch]
  · intro h name more hr; subst h; subst hr; simp [hp, dispatch]
  · intro h hr; subst h; subst hr; simp [hp, dispatch]

/-- Instance of the amended C3 at `gcptool -p demo bogus`: usage, exit status 1. -/
theorem main_dispatch_witness :
    (invUnknown.help = false ∧ invUnknown.args = "bogus" :: [] ∧ resolvedProjectID invUnknown ≠ ""
      ∧ "bogus" ≠ "deploy" ∧ "bogus" ≠ "describe" ∧ "bogus" ≠ "list")
    ∧ main invUnknown = .usageExit ["Unknown command: " ++ "bogus" ++ "\n"] 1 :=
  ⟨⟨rfl, rfl, by decide, by decide, by decide, by decide⟩,
    (((main_dispatch invUnknown).2.2 "bogus" [] rfl rfl).2 (by decide)).1
      (by decide) (by decide) (by decide)⟩

/-- C4 fails as stated: `gcptool` with no arguments, no `-p` and no
`GCP_PROJECT_ID` does not end fatally with a diagnostic; it prints the usage
text and exits with status 0. -/
theorem main_config_counterexample :
    invBare.projectID = "" ∧ invBare.getenv "GCP_PROJECT_ID" = ""
    ∧ main invBare = .usageExit [] 0
    ∧ ∀ msg : String, main invBare ≠ .fatal msg := by
  refine ⟨rfl, rfl, by decide, ?_⟩
  intro msg h
  have h2 : main invBare = .usageExit [] 0 := by decide
  rw [h2] at h
  exact MainResult.noConfusion h

/-- C4 (amended): for every invocation that gets past the usage gate (no `-h`
and at least one positional argument), an empty `-p` together with an empty
`GCP_PROJECT_ID` ends the process with the fatal "Project ID required"
diagnostic. For every invocation, a handler is only ever called with a Config
whose ProjectID is non-empty, is the `-p` value when that is non-empty and the
`GCP_PROJECT_ID` variable otherwise, and whose Region is the `-r` value. -/
theorem main_config (inv : Invocation) :
    (inv.help = false → inv.args ≠ [] → inv.projectID = "" → inv.getenv "GCP_PROJECT_ID" = "" →
      main inv = .fatal projectRequiredMsg)
    ∧ (∀ c : Config, (main inv).handlerConfig = some c →
        c.ProjectID ≠ ""
        ∧ (inv.projectID ≠ "" → c.ProjectID = inv.projectID)
        ∧ (inv.projectID = "" → c.ProjectID = inv.getenv "GCP_PROJECT_ID")
        ∧ c.Region = inv.region) := by
  constructor
  · intro hh ha hp he
    obtain ⟨command, rest, hargs⟩ := List.exists_cons_of_ne_nil ha
    rw [main_past_gate inv hh command rest hargs]
    simp [resolvedProjectID, hp, he]
  · intro c hc
    by_cases hg : inv.help = true ∨ inv.args = []
    · rw [main_usage_gate inv hg] at hc
      simp [MainResult.handlerConfig] at hc
    · have hh : inv.help = false := by
        cases h : inv.help with
        | false => rfl
        | true => exact absurd (Or.inl h) hg
      have ha : inv.args ≠ [] := fun h => hg (Or.inr h)
      obtain ⟨command, rest, hargs⟩ := List.exists_cons_of_ne_nil ha
      rw [main_past_gate inv hh command rest hargs] at hc
      by_cases hr : resolvedProjectID inv = ""
      · simp [hr, MainResult.handlerConfig] at hc
      · have key : c = { ProjectID := resolvedProjectID inv, Region := inv.region } := by
          simp only [hr, if_false, dispatch] at hc
          split at hc
          · split at hc
            · simp [MainResult.handlerConfig] at hc
            · simp [MainResult.handlerConfig] at hc; exact hc.symm
          · split at hc
            · split at hc
              · simp [MainResult.handlerConfig] at hc
              · simp [MainResult.handlerConfig] at hc; exact hc.symm
            · split at hc
              · simp [MainResult.handlerConfig] at hc; exact hc.symm
              · simp [MainResult.handlerConfig] at hc
        subst key
        refine ⟨hr, ?_, ?_, rfl⟩
        · intro hp; simp [resolvedProjectID, hp]
        · intro hp; simp [resolvedProjectID, hp]

/-- Instance of the amended C4 at `gcptool list` with `GCP_PROJECT_ID=envproj`:
`handleList` is called with project "envproj". -/
theorem main_config_witness :
    (main invListEnv).handlerConfig = some { ProjectID := "envproj", Region := "us-central1" }
    ∧ (({ ProjectID := "envproj", Region := "us-central1" } : Config).ProjectID ≠ ""
      ∧ (invListEnv.projectID ≠ "" →
        ({ ProjectID := "envproj", Region := "us-central1" } : Config).ProjectID
          = invListEnv.projectID)
      ∧ (invListEnv.projectID = "" →
        ({ ProjectID := "envproj", Region := "us-central1" } : Config).ProjectID
          = invListEnv.getenv "GCP_PROJECT_ID")
      ∧ ({ ProjectID := "envproj", Region := "us-central1" } : Config).Region
          = invListEnv.region) :=
  ⟨by decide, (main_config invListEnv).2 _ (by decide)⟩

/-! ## Properties of `handleDeploy` -/

theorem valuePrefix_zero (flag dflt : String) (options : List String) :
    valuePrefix flag dflt options 0 = dflt := by
  simp [valuePrefix]

theorem valuePrefix_length (flag dflt : String) (options : List String) :
    valuePrefix flag dflt options options.length = valueAfterLast flag dflt options := rfl

theorem valuePrefix_succ (flag dflt : String) (options : List String) (n : Nat) :
    valuePrefix flag dflt options (n + 1) =
      if options.get? n = some flag ∧ n + 1 < options.length then options.getD (n + 1) ""
      else valuePrefix flag dflt options n := by
  unfold valuePrefix
  rw [List.range_succ, List.filter_append]
  by_cases h : options.get? n = some flag ∧ n + 1 < options.length
  · have hf : List.filter (fun i => decide (options.get? i = some flag) &&
        decide (i + 1 < options.length)) [n] = [n] := by
      have h1 := h.1
      have h2 := h.2
      simp only [List.get?_eq_getElem?] at h1
      simp [List.filter_cons, h1, h2]
    rw [hf, List.getLast?_concat, if_pos h]
    simp [List.getElem?_eq_getElem h.2]
  · have hf : List.filter (fun i => decide (options.get? i = some flag) &&
        decide (i + 1 < options.length)) [n] = [] := by
      simp only [List.get?_eq_getElem?] at h
      simp only [List.filter_cons, List.filter_nil, List.get?_eq_getElem?]
      rw [if_neg]
      simpa using h
    rw [hf, List.append_nil, if_neg h]

theorem optionStep_spec (options : List String) (st : DeployOptions) (n : Nat)
    (hn : n < options.length) :
    optionStep options st n = some
      { environment :=
          if options.get? n = some "-e" ∧ n + 1 < options.length then options.getD (n + 1) ""
          else st.environment,
        version :=
          if options.get? n = some "-v" ∧ n + 1 < options.length then options.getD (n + 1) ""
          else st.version,
        clean := st.clean || decide (options.get? n = some "-c"),
        source :=
          if options.get? n = some "-s" ∧ n + 1 < options.length then options.getD (n + 1) ""
          else st.source } := by
  have hget : options.get? n = some (options.getD n "") := by
    simp [List.getElem?_eq_getElem hn]
  have hnext : n + 1 < options.length →
      options.get? (n + 1) = some (options.getD (n + 1) "") := by
    intro h
    simp [List.getElem?_eq_getElem h]
  unfold optionStep
  rw [hget]
  simp only [Option.some.injEq]
  by_cases hl : n + 1 < options.length
  · rw [hnext hl]
    generalize options.getD n "" = opt
    generalize options.getD (n + 1) "" = nxt
    have d1 : ("-v" : String) ≠ "-e" := by decide
    have d2 : ("-c" : String) ≠ "-e" := by decide
    have d3 : ("-c" : String) ≠ "-v" := by decide
    have d4 : ("-s" : String) ≠ "-e" := by decide
    have d5 : ("-s" : String) ≠ "-v" := by decide
    have d6 : ("-s" : String) ≠ "-c" := by decide
    by_cases he : opt = "-e"
    · subst he
      simp [hl, d1.symm, d2.symm, d4.symm]
    · by_cases hv : opt = "-v"
      · subst hv
        simp [hl, d1, d3.symm, d5.symm]
      · by_cases hc : opt = "-c"
        · subst hc
          simp [d2, d3, d6.symm]
        · by_cases hs : opt = "-s"
          · subst hs
            simp [hl, d4, d5, d6]
          · simp [he, hv, hc, hs]
  · generalize options.getD n "" = opt
    by_cases he : opt = "-e"
    · subst he
      simp [hl]
    · by_cases hv : opt = "-v"
      · subst hv
        simp [hl]
      · by_cases hc : opt = "-c"
        · subst hc
          simp [hl]
        · by_cases hs : opt = "-s"
          · subst hs
            simp [hl]
          · simp [he, hv, hc, hs, hl]

theorem loop_invariant (options : List String) (n : Nat) (hn : n ≤ options.length) :
    (List.range n).foldlM (optionStep options) DeployOptions.initial = some
      { environment := valuePrefix "-e" "prod" options n,
        version := valuePrefix "-v" "" options n,
        clean := decide ("-c" ∈ options.take n),
        source := valuePrefix "-s" "./function" options n } := by
  induction n with
  | zero => simp [valuePrefix_zero, DeployOptions.initial]
  | succ k ih =>
    have hk : k < options.length := hn
    rw [List.range_succ, List.foldlM_append, ih (Nat.le_of_lt hk)]
    simp only [List.foldlM_cons, List.foldlM_nil, Option.pure_def, Option.bind_eq_bind,
      Option.some_bind]
    rw [optionStep_spec options _ k hk]
    simp only [valuePrefix_succ, List.take_succ, List.mem_append, Option.some_bind]
    congr 2
    simp [List.getElem?_eq_getElem hk, eq_comm]

theorem parseOptions_eq_spec (options : List String) :
    parseOptions options = some (parseOptionsSpec options) := by
  unfold parseOptions parseOptionsSpec
  rw [loop_invariant options options.length (Nat.le_refl _)]
  simp [valuePrefix_length]

theorem valueAfterLast_default (flag dflt : String) (options : List String)
    (h : ∀ i : Nat, i + 1 < options.length → options.get? i ≠ some flag) :
    valueAfterLast flag dflt options = dflt := by
  unfold valueAfterLast
  have hf : (List.range options.length).filter
      (fun i => decide (options.get? i = some flag) && decide (i + 1 < options.length)) = [] := by
    rw [List.filter_eq_nil_iff]
    intro i _ hi
    simp only [Bool.and_eq_true, decide_eq_true_eq] at hi
    exact h i hi.2 hi.1
  rw [hf]
  rfl

theorem valueAfterLast_not_mem (flag dflt : String) (options : List String)
    (h : flag ∉ options) : valueAfterLast flag dflt options = dflt := by
  apply valueAfterLast_default
  intro i _ hi
  apply h
  rw [List.get?_eq_getElem?] at hi
  exact List.getElem?_mem hi

theorem valueAfterLast_final (flag dflt : String) (pre : List String) (h : flag ∉ pre) :
    valueAfterLast flag dflt (pre ++ [flag]) = dflt := by
  apply valueAfterLast_default
  intro i hlt hi
  apply h
  have hi2 : i < pre.length := by simpa using hlt
  rw [List.get?_eq_getElem?, List.getElem?_append_left hi2] at hi
  exact List.getElem?_mem hi

theorem parseOptionsSpec_clean (options : List String) :
    (parseOptionsSpec options).clean = true ↔ "-c" ∈ options := by
  simp [parseOptionsSpec]

/-- C10: the option loop of `handleDeploy` is total (no iteration panics with
an index out of range) and equals the reference definition on every option
list: environment (default "prod"), version (default "") and source (default
"./function") are the token right after the last occurrence of `-e`, `-v`,
`-s` that has a following token, and clean is true exactly when `-c` occurs.
Hence `["-e", "-c"]` gives environment "-c" with clean set; a `-e`, `-v` or
`-s` whose only occurrence is the final token leaves its default in place; and
a list without any of the four flags leaves every default in place. -/
theorem parseOptions_refines (options : List String) :
    parseOptions options = some (parseOptionsSpec options)
    ∧ parseOptions ["-e", "-c"]
        = some { environment := "-c", version := "", clean := true, source := "./function" }
    ∧ ("-e" ∉ options →
        (parseOptions (options ++ ["-e"])).map DeployOptions.environment = some "prod")
    ∧ ("-v" ∉ options →
        (parseOptions (options ++ ["-v"])).map DeployOptions.version = some "")
    ∧ ("-s" ∉ options →
        (parseOptions (options ++ ["-s"])).map DeployOptions.source = some "./function")
    ∧ ("-e" ∉ options → "-v" ∉ options → "-c" ∉ options → "-s" ∉ options →
        parseOptions options = some DeployOptions.initial) := by
  refine ⟨parseOptions_eq_spec options, by decide, ?_, ?_, ?_, ?_⟩
  · intro h
    rw [parseOptions_eq_spec]
    exact congrArg some (valueAfterLast_final "-e" "prod" options h)
  · intro h
    rw [parseOptions_eq_spec]
    exact congrArg some (valueAfterLast_final "-v" "" options h)
  · intro h
    rw [parseOptions_eq_spec]
    exact congrArg some (valueAfterLast_final "-s" "./function" options h)
  · intro he hv hc hs
    rw [parseOptions_eq_spec]
    simp [parseOptionsSpec, DeployOptions.initial, valueAfterLast_not_mem, he, hv, hc, hs]

/-- Instance of C10 at the option list `["-v", "2", "x"]`: a trailing `-e`
changes nothing, and the reference definition gives the parsed options. -/
theorem parseOptions_refines_witness :
    "-e" ∉ ["-v", "2", "x"]
    ∧ (parseOptions (["-v", "2", "x"] ++ ["-e"])).map DeployOptions.environment = some "prod"
    ∧ parseOptions ["-v", "2", "x"] = some (parseOptionsSpec ["-v", "2", "x"]) :=
  ⟨by decide, (parseOptions_refines ["-v", "2", "x"]).2.2.1 (by decide),
    (parseOptions_refines ["-v", "2", "x"]).1⟩

theorem handleDeploy_decomp (world : DeployWorld) (config : Config) (functionName : String)
    (options : List String) :
    handleDeploy world config functionName options =
      ([.print ("🚀 Deploying function '" ++ functionName ++ "' to project '" ++
          config.ProjectID ++ "'...\n")] ++
        cleanEvents world (parseOptionsSpec options) ++
        [.exec (deployCmd config functionName (parseOptionsSpec options)) ""] ++
        (afterDeploy world config functionName).1,
       (afterDeploy world config functionName).2) := by
  unfold handleDeploy cleanEvents afterDeploy
  rw [parseOptions_eq_spec]
  generalize parseOptionsSpec options = o
  obtain ⟨env, ver, cl, src⟩ := o
  obtain ⟨cleanErr, deployErr, describeOut⟩ := world
  cases cl <;> cases cleanErr <;> cases deployErr <;> cases describeOut <;> simp <;>
    split <;> simp_all

theorem deployCmd_third (config : Config) (functionName : String) (o : DeployOptions) :
    (deployCmd config functionName o).get? 2 = some "deploy" := by
  unfold deployCmd
  by_cases he : o.environment = "" <;> by_cases hv : o.version = "" <;> simp [he, hv]

theorem deployCmd_ne_cleanCmd (config : Config) (functionName : String) (o : DeployOptions) :
    deployCmd config functionName o ≠ cleanCmd := by
  intro h
  have h3 := deployCmd_third config functionName o
  rw [h] at h3
  revert h3
  decide

theorem deployCmd_ne_describeCmd (config : Config) (functionName : String) (o : DeployOptions) :
    deployCmd config functionName o ≠ describeCmd config functionName := by
  intro h
  have h3 := deployCmd_third config functionName o
  rw [h] at h3
  simp [describeCmd] at h3

theorem describeCmd_ne_cleanCmd (config : Config) (functionName : String) :
    describeCmd config functionName ≠ cleanCmd := by
  simp [describeCmd, cleanCmd]

theorem getLast?_append_pair {α : Type} (l : List α) (a b : α) :
    (l ++ [a, b]).getLast? = some b := by
  have h : l ++ [a, b] = (l ++ [a]) ++ [b] := by simp
  rw [h, List.getLast?_concat]

theorem afterDeploy_execs (world : DeployWorld) (config : Config) (functionName : String)
    (argv : List String) (dir : String)
    (h : Event.exec argv dir ∈ (afterDeploy world config functionName).1) :
    argv = describeCmd config functionName ∧ dir = "" ∧ world.deployErr = none := by
  unfold afterDeploy at h
  obtain ⟨cleanErr, deployErr, describeOut⟩ := world
  cases deployErr with
  | some err => simp at h
  | none =>
    cases describeOut with
    | error e => simpa using h
    | ok out =>
      by_cases hu : TrimSpace out = "" <;> simpa [hu] using h

theorem cleanEvents_execs (world : DeployWorld) (o : DeployOptions)
    (argv : List String) (dir : String) (h : Event.exec argv dir ∈ cleanEvents world o) :
    argv = cleanCmd ∧ dir = o.source ∧ o.clean = true := by
  unfold cleanEvents at h
  obtain ⟨cleanErr, deployErr, describeOut⟩ := world
  cases hc : o.clean with
  | false => simp [hc] at h
  | true => cases cleanErr <;> simpa [hc] using h

/-- C5: for every Config, function name and option list, the options parse
and `handleDeploy` runs the deploy subprocess with exactly the arguments
`gcloud functions deploy <name> --gen2 --runtime=go121 --region=<Region>
--source=<source> --entry-point=HandleRequest --trigger=https
--allow-unauthenticated --project=<ProjectID>`, then
`--update-labels=environment=<environment>` exactly when the parsed environment
is non-empty, then `--update-labels=version=<version>` exactly when the parsed
version is non-empty, and nothing else; the parsed environment is "prod" when
no `-e` is given; and every other subprocess it starts is the clean step or the
URL lookup. -/
theorem handleDeploy_argv (world : DeployWorld) (config : Config) (functionName : String)
    (options : List String) :
    ∃ o : DeployOptions, parseOptions options = some o
    ∧ deployCmd config functionName o =
        ["gcloud", "functions", "deploy", functionName, "--gen2", "--runtime=go121",
          "--region=" ++ config.Region, "--source=" ++ o.source,
          "--entry-point=HandleRequest", "--trigger=https", "--allow-unauthenticated",
          "--project=" ++ config.ProjectID]
        ++ (if o.environment ≠ "" then ["--update-labels=environment=" ++ o.environment]
            else [])
        ++ (if o.version ≠ "" then ["--update-labels=version=" ++ o.version] else [])
    ∧ ("-e" ∉ options → o.environment = "prod")
    ∧ Event.exec (deployCmd config functionName o) ""
        ∈ (handleDeploy world config functionName options).1
    ∧ (∀ (argv : List String) (dir : String),
        Event.exec argv dir ∈ (handleDeploy world config functionName options).1 →
        argv = deployCmd config functionName o
          ∨ argv = cleanCmd ∨ argv = describeCmd config functionName) := by
  refine ⟨parseOptionsSpec options, parseOptions_eq_spec options, ?_,
    valueAfterLast_not_mem "-e" "prod" options, ?_, ?_⟩
  · unfold deployCmd
    by_cases he : (parseOptionsSpec options).environment = "" <;>
      by_cases hv : (parseOptionsSpec options).version = "" <;> simp [he, hv]
  · rw [handleDeploy_decomp]
    simp
  · intro argv dir h
    rw [handleDeploy_decomp] at h
    simp only [List.mem_append, List.mem_singleton, Event.exec.injEq, reduceCtorEq,
      false_or] at h
    rcases h with (h | h) | h
    · exact Or.inr (Or.inl (cleanEvents_execs _ _ _ _ h).1)
    · exact Or.inl h.1
    · exact Or.inr (Or.inr (afterDeploy_execs _ _ _ _ _ h).1)

/-- C6: for every option list and every result of the subprocesses: the clean
step is run exactly when `-c` is among the options, and then it is run before
the deploy step; the deploy step is run whatever the clean step returned; when
the deploy step fails the handler ends fatally and the URL lookup is not run;
when it succeeds the URL lookup is run and the handler returns normally, and a
failing lookup adds nothing to the trace. -/
theorem handleDeploy_order (world : DeployWorld) (config : Config) (functionName : String)
    (options : List String) :
    ∃ o : DeployOptions, parseOptions options = some o
    ∧ ((∃ dir : String,
          Event.exec cleanCmd dir ∈ (handleDeploy world config functionName options).1)
        ↔ "-c" ∈ options)
    ∧ ("-c" ∈ options → ∃ pre mid post : List Event,
        (handleDeploy world config functionName options).1 =
          pre ++ [Event.exec cleanCmd o.source] ++ mid ++
            [Event.exec (deployCmd config functionName o) ""] ++ post
        ∧ (∀ (argv : List String) (dir : String), Event.exec argv dir ∉ pre ++ mid)
        ∧ Event.exec (deployCmd config functionName o) "" ∉ post)
    ∧ Event.exec (deployCmd config functionName o) ""
        ∈ (handleDeploy world config functionName options).1
    ∧ (∀ err : String, world.deployErr = some err →
        (handleDeploy world config functionName options).2
            = .fatal ("❌ Deployment failed: " ++ err)
        ∧ ∀ dir : String, Event.exec (describeCmd config functionName) dir
            ∉ (handleDeploy world config functionName options).1)
    ∧ (world.deployErr = none →
        (handleDeploy world config functionName options).2 = .returned
        ∧ Event.exec (describeCmd config functionName) ""
            ∈ (handleDeploy world config functionName options).1
        ∧ ∀ err : String, world.describeOut = .error err →
            (handleDeploy world config functionName options).1.getLast?
              = some (Event.exec (describeCmd config functionName) "")) := by
  refine ⟨parseOptionsSpec options, parseOptions_eq_spec options, ?_⟩
  rw [handleDeploy_decomp]
  refine ⟨?_, ?_, ?_, ?_, ?_⟩
  · rw [← parseOptionsSpec_clean]
    constructor
    · rintro ⟨dir, h⟩
      simp only [List.mem_append, List.mem_singleton, Event.exec.injEq, reduceCtorEq,
        false_or] at h
      rcases h with (h | h) | h
      · exact (cleanEvents_execs _ _ _ _ h).2.2
      · exact absurd h.1.symm (deployCmd_ne_cleanCmd _ _ _)
      · exact absurd (afterDeploy_execs _ _ _ _ _ h).1.symm (describeCmd_ne_cleanCmd _ _)
    · intro hc
      refine ⟨(parseOptionsSpec options).source, ?_⟩
      simp [cleanEvents, hc]
  · intro hmem
    have hc := (parseOptionsSpec_clean options).2 hmem
    refine ⟨[.print ("🚀 Deploying function '" ++ functionName ++ "' to project '" ++
        config.ProjectID ++ "'...\n"), .print "🧹 Cleaning and rebuilding...\n"],
      (match world.cleanErr with
        | some err => [.log ("Warning: Clean failed: " ++ err)]
        | none => []),
      (afterDeploy world config functionName).1, ?_, ?_, ?_⟩
    · simp [cleanEvents, hc]
    · intro argv dir
      cases world.cleanErr <;> simp
    · intro h
      exact deployCmd_ne_describeCmd _ _ _ (afterDeploy_execs _ _ _ _ _ h).1
  · simp
  · intro err herr
    refine ⟨by simp [afterDeploy, herr], ?_⟩
    intro dir h
    simp only [List.mem_append, List.mem_singleton, Event.exec.injEq, reduceCtorEq,
      false_or] at h
    rcases h with (h | h) | h
    · exact describeCmd_ne_cleanCmd _ _ (cleanEvents_execs _ _ _ _ h).1
    · exact deployCmd_ne_describeCmd _ _ _ h.1.symm
    · have := (afterDeploy_execs _ _ _ _ _ h).2.2
      rw [herr] at this
      exact Option.noConfusion this
  · intro hok
    refine ⟨by simp [afterDeploy, hok], by simp [afterDeploy, hok], ?_⟩
    intro err herr
    simp only [afterDeploy, hok, herr, List.append_nil]
    exact getLast?_append_pair _ _ _

/-- Instance of C5 at the options `["-v", "7"]`: no `-e`, so the parsed
environment is "prod". -/
theorem handleDeploy_argv_witness :
    "-e" ∉ ["-v", "7"]
    ∧ ∃ o : DeployOptions, parseOptions ["-v", "7"] = some o ∧ o.environment = "prod" :=
  ⟨by decide,
    match handleDeploy_argv worldDeployFails demoConfig "hello" ["-v", "7"] with
    | ⟨o, ho, _, henv, _⟩ => ⟨o, ho, henv (by decide)⟩⟩

/-- Instance of C6 at the options `["-c"]` in a world where the clean step
fails and the URL lookup fails: the handler still returns normally. -/
theorem handleDeploy_order_witness :
    worldCleanFails.deployErr = none
    ∧ (handleDeploy worldCleanFails demoConfig "hello" ["-c"]).2 = .returned :=
  ⟨rfl,
    match handleDeploy_order worldCleanFails demoConfig "hello" ["-c"] with
    | ⟨_, _, _, _, _, _, hok⟩ => (hok rfl).1⟩

/-! ## Properties of the name extraction -/

theorem length_splitOnP {α : Type} (p : α → Bool) (xs : List α) :
    (xs.splitOnP p).length = (xs.filter p).length + 1 := by
  induction xs with
  | nil => simp
  | cons x xs ih =>
    rw [List.splitOnP_cons]
    by_cases h : p x = true
    · simp [h, ih]
    · have hne := List.splitOnP_ne_nil p xs
      cases hs : List.splitOnP p xs with
      | nil => exact absurd hs hne
      | cons a l =>
        rw [hs] at ih
        simp only [List.length_cons] at ih
        simp [h, ih]

theorem splitOnP_segments {α : Type} (p : α → Bool) (xs : List α) :
    ∀ l ∈ xs.splitOnP p, ∀ y ∈ l, p y = false := by
  induction xs with
  | nil => simp
  | cons x xs ih =>
    rw [List.splitOnP_cons]
    by_cases h : p x = true
    · intro l hl
      simp only [h, if_true, List.mem_cons] at hl
      rcases hl with hl | hl
      · subst hl; simp
      · exact ih l hl
    · have hne := List.splitOnP_ne_nil p xs
      cases hs : List.splitOnP p xs with
      | nil => exact absurd hs hne
      | cons a rest =>
        rw [hs] at ih
        intro l hl
        simp only [h, List.modifyHead_cons, List.mem_cons, Bool.false_eq_true, if_false] at hl
        rcases hl with hl | hl
        · subst hl
          intro y hy
          rcases List.mem_cons.1 hy with hy | hy
          · subst hy; simpa using h
          · exact ih a (List.mem_cons_self _ _) y hy
        · exact ih l (List.mem_cons_of_mem _ hl)

theorem Split_length (s : String) (sep : Char) :
    (Split s sep).length = s.data.count sep + 1 := by
  unfold Split List.splitOn
  rw [List.length_map, length_splitOnP, List.count, List.countP_eq_length_filter]

theorem Split_segments (s : String) (sep : Char) : ∀ seg ∈ Split s sep, sep ∉ seg.data := by
  intro seg hseg hmem
  unfold Split List.splitOn at hseg
  obtain ⟨l, hl, rfl⟩ := List.mem_map.1 hseg
  have := splitOnP_segments (fun c => c == sep) s.data l hl sep hmem
  simp at this

theorem Join_Split (s : String) (sep : Char) : Join (Split s sep) sep = s := by
  unfold Join Split
  rw [List.map_map]
  have h : (String.data ∘ String.mk) = id := by
    funext l; rfl
  rw [h, List.map_id, List.intercalate_splitOn]

theorem Split_Join (segs : List String) (sep : Char) (hne : segs ≠ [])
    (hfree : ∀ seg ∈ segs, sep ∉ seg.data) : Split (Join segs sep) sep = segs := by
  unfold Join Split
  rw [List.splitOn_intercalate, List.map_map]
  · have h : (String.mk ∘ String.data) = id := by
      funext l; rfl
    rw [h, List.map_id]
  · intro l hl
    obtain ⟨seg, hseg, rfl⟩ := List.mem_map.1 hl
    exact hfree seg hseg
  · simpa using hne

theorem resourcePath_eq_Join (P R F : String) :
    "projects/" ++ P ++ "/locations/" ++ R ++ "/functions/" ++ F
      = Join ["projects", P, "locations", R, "functions", F] '/' := by
  apply String.ext
  simp [Join, String.data_append, List.intercalate]

theorem functionNameOf_short (name : String) (h : (Split name '/').length < 6) :
    functionNameOf name = none := by
  unfold functionNameOf
  rw [List.get?_eq_getElem?, List.getElem?_eq_none]
  omega

/-- C7: the name extraction `strings.Split(name, "/")[5]`. The split of a name
is its segmentation at "/": one more segment than the name has "/"
characters, no segment contains "/", and joining the segments with "/" gives
the name back. For every name with fewer than six segments the extraction
fails with an index out of range (and with it `handleDescribe` and the record
projection of `handleList`); for every name with six or more segments it
yields the sixth segment; for "projects/P/locations/R/functions/F" with P, R
and F free of "/" it yields F. -/
theorem functionNameOf_spec (name : String) :
    (Split name '/').length = name.data.count '/' + 1
    ∧ (∀ seg ∈ Split name '/', '/' ∉ seg.data)
    ∧ Join (Split name '/') '/' = name
    ∧ ((Split name '/').length < 6 → functionNameOf name = none)
    ∧ (∀ h : 5 < (Split name '/').length,
        functionNameOf name = some ((Split name '/').get ⟨5, h⟩))
    ∧ (∀ segs : List String, segs ≠ [] → (∀ seg ∈ segs, '/' ∉ seg.data) →
        name = Join segs '/' →
        (segs.length < 6 → functionNameOf name = none)
        ∧ (∀ h : 5 < segs.length, functionNameOf name = some (segs.get ⟨5, h⟩)))
    ∧ (∀ P R F : String, '/' ∉ P.data → '/' ∉ R.data → '/' ∉ F.data →
        functionNameOf ("projects/" ++ P ++ "/locations/" ++ R ++ "/functions/" ++ F) = some F)
    ∧ (∀ function : CloudFunction, function.Name = name → (Split name '/').length < 6 →
        listInfo function = none
        ∧ ∀ (Format : Time → String → String) (world : DescribeWorld) (config : Config)
            (functionName : String),
            world.clientErr = none →
            world.getFunction ("projects/" ++ config.ProjectID ++ "/locations/" ++
              config.Region ++ "/functions/" ++ functionName) = .ok function →
            (handleDescribe Format world config functionName).2 = .panic) := by
  refine ⟨Split_length name '/', Split_segments name '/', Join_Split name '/',
    functionNameOf_short name, ?_, ?_, ?_, ?_⟩
  · intro h
    unfold functionNameOf
    rw [List.get?_eq_getElem?, List.getElem?_eq_getElem h]
    rfl
  · intro segs hne hfree hname
    subst hname
    have hs := Split_Join segs '/' hne hfree
    constructor
    · intro h
      exact functionNameOf_short _ (by rw [hs]; exact h)
    · intro h
      unfold functionNameOf
      rw [hs, List.get?_eq_getElem?, List.getElem?_eq_getElem h]
      rfl
  · intro P R F hP hR hF
    rw [resourcePath_eq_Join]
    unfold functionNameOf
    rw [Split_Join _ '/' (by simp) (by
      intro seg hseg
      simp only [List.mem_cons, List.mem_singleton, List.not_mem_nil, or_false] at hseg
      rcases hseg with h | h | h | h | h | h <;> subst h <;> first | assumption | decide)]
    rfl
  · intro function hfn hshort
    have hnone : functionNameOf function.Name = none := by
      rw [hfn]; exact functionNameOf_short name hshort
    refine ⟨by simp [listInfo, hnone], ?_⟩
    intro Format world config functionName hclient hget
    simp [handleDescribe, hclient, hget, describeInfo, hnone]

/-- Instance of C7 at the name "hello" (one segment) and at the path
"projects/demo/locations/us-central1/functions/hello". -/
theorem functionNameOf_spec_witness :
    ((Split "hello" '/').length < 6 ∧ functionNameOf "hello" = none)
    ∧ ('/' ∉ "demo".data ∧ '/' ∉ "us-central1".data ∧ '/' ∉ "hello".data
      ∧ functionNameOf ("projects/" ++ "demo" ++ "/locations/" ++ "us-central1" ++
          "/functions/" ++ "hello") = some "hello") :=
  ⟨⟨by decide, (functionNameOf_spec "hello").2.2.2.1 (by decide)⟩,
    ⟨by decide, by decide, by decide,
      (functionNameOf_spec "hello").2.2.2.2.2.2.1 "demo" "us-central1" "hello"
        (by decide) (by decide) (by decide)⟩⟩

/-! ## Properties of `handleList` and of the trigger classification -/

theorem listInfo_isSome (function : CloudFunction)
    (h : 6 ≤ (Split function.Name '/').length) : ∃ info, listInfo function = some info := by
  have h5 : 5 < (Split function.Name '/').length := h
  unfold listInfo functionNameOf
  rw [List.get?_eq_getElem?, List.getElem?_eq_getElem h5]
  exact ⟨_, rfl⟩

theorem listLoop_done (items : List CloudFunction) (functions : List Function)
    (h : ∀ f ∈ items, 6 ≤ (Split f.Name '/').length) :
    listLoop items none functions = .ok (functions ++ items.filterMap listInfo) := by
  induction items generalizing functions with
  | nil => simp [listLoop]
  | cons f rest ih =>
    obtain ⟨info, hinfo⟩ := listInfo_isSome f (h f (List.mem_cons_self _ _))
    rw [listLoop]
    simp only [hinfo]
    rw [ih _ (fun g hg => h g (List.mem_cons_of_mem _ hg))]
    simp [List.filterMap_cons, hinfo]

theorem listLoop_error (items : List CloudFunction) (functions : List Function) (err : String)
    (h : ∀ f ∈ items, 6 ≤ (Split f.Name '/').length) :
    listLoop items (some err) functions = .error (.fatal ("Failed to list functions: " ++ err)) := by
  induction items generalizing functions with
  | nil => simp [listLoop]
  | cons f rest ih =>
    obtain ⟨info, hinfo⟩ := listInfo_isSome f (h f (List.mem_cons_self _ _))
    rw [listLoop]
    simp only [hinfo]
    exact ih _ (fun g hg => h g (List.mem_cons_of_mem _ hg))

theorem foldl_print (Format : Time → String → String) (functions : List Function)
    (t : List Event) :
    functions.foldl (fun t f => t ++ [Event.print (listRow Format f)]) t
      = t ++ functions.map (fun f => Event.print (listRow Format f)) := by
  induction functions generalizing t with
  | nil => simp
  | cons f rest ih => simp [ih]

theorem map_listInfo_filterMap (items : List CloudFunction)
    (h : ∀ f ∈ items, 6 ≤ (Split f.Name '/').length) :
    items.map listInfo = (items.filterMap listInfo).map some := by
  induction items with
  | nil => simp
  | cons f rest ih =>
    obtain ⟨info, hinfo⟩ := listInfo_isSome f (h f (List.mem_cons_self _ _))
    simp [List.filterMap_cons, hinfo, ih (fun g hg => h g (List.mem_cons_of_mem _ hg))]

/-- C8 fails as stated: when the iterator yields the single record named
"hello" and then `Done`, `handleList` panics in the name extraction and prints
no row, no title and no message; and when the iterator yields one well-named
record and then an error, `handleList` ends fatally and prints nothing. -/
theorem handleList_counterexample :
    worldListShort.listFunctions "projects/demo/locations/us-central1"
        = ([exampleFunction "hello"], none)
    ∧ handleList exampleFormat worldListShort demoConfig = ([], .panic)
    ∧ worldListError.listFunctions "projects/demo/locations/us-central1"
        = ([exampleFunction "projects/demo/locations/us-central1/functions/hello"],
            some "rpc error")
    ∧ handleList exampleFormat worldListError demoConfig
        = ([], .fatal "Failed to list functions: rpc error") := by
  refine ⟨rfl, by decide, rfl, by decide⟩

/-- C8 (amended): when the client is created and every yielded record has a
name of at least six "/"-separated segments, the output of `handleList` is a
function of the yielded sequence and of how the iteration ends. If it ends
with `Done`: for an empty sequence only the "No functions found" message is
printed; otherwise the title, the header and the separator are printed,
followed by exactly one row per record, in iteration order, each row built
from the projection of its record, an empty version being shown as "n/a". If
it ends with an error, nothing is printed and the handler ends fatally. -/
theorem handleList_output (Format : Time → String → String) (world : ListWorld)
    (config : Config) (items : List CloudFunction) (final : Option String)
    (hclient : world.clientErr = none)
    (hiter : world.listFunctions
      ("projects/" ++ config.ProjectID ++ "/locations/" ++ config.Region) = (items, final))
    (hnames : ∀ f ∈ items, 6 ≤ (Split f.Name '/').length) :
    items.map listInfo = (items.filterMap listInfo).map some
    ∧ (final = none → items = [] →
        handleList Format world config = ([.print (noFunctionsLine config)], .returned))
    ∧ (final = none → items ≠ [] →
        handleList Format world config =
          ([.print (listTitle config), .print listHeader, .print listSeparator] ++
            (items.filterMap listInfo).map (fun f => Event.print (listRow Format f)),
           .returned))
    ∧ (∀ err : String, final = some err →
        handleList Format world config = ([], .fatal ("Failed to list functions: " ++ err)))
    ∧ (∀ f : Function, f.Version = "" →
        listRow Format f = tableLine f.Name f.Status f.Runtime f.Trigger "n/a"
          (Format f.UpdateTime "2006-01-02 15:04"))
    ∧ (∀ f : Function, f.Version ≠ "" →
        listRow Format f = tableLine f.Name f.Status f.Runtime f.Trigger f.Version
          (Format f.UpdateTime "2006-01-02 15:04")) := by
  have hmap := map_listInfo_filterMap items hnames
  refine ⟨hmap, ?_, ?_, ?_, ?_, ?_⟩
  · intro hfin hnil
    subst hfin
    subst hnil
    simp [handleList, hclient, hiter, listLoop]
  · intro hfin hne
    subst hfin
    have hlen : (items.filterMap listInfo).length ≠ 0 := by
      have h1 := congrArg List.length hmap
      simp only [List.length_map] at h1
      rw [← h1]
      intro h0
      exact hne (List.length_eq_zero.1 h0)
    unfold handleList
    simp only [hclient, hiter, listLoop_done items [] hnames, List.nil_append]
    rw [if_neg hlen, foldl_print]
  · intro err hfin
    subst hfin
    unfold handleList
    simp only [hclient, hiter, listLoop_error items [] err hnames]
  · intro f hv
    simp [listRow, hv]
  · intro f hv
    simp [listRow, hv]

/-- Instance of the amended C8: two well-named records are listed in iteration
order (b before a), after the title, header and separator. -/
theorem handleList_output_witness :
    (worldListTwo.clientErr = none
      ∧ worldListTwo.listFunctions
          ("projects/" ++ demoConfig.ProjectID ++ "/locations/" ++ demoConfig.Region)
        = ([exampleFunction "projects/demo/locations/us-central1/functions/b",
            exampleFunction "projects/demo/locations/us-central1/functions/a"], none)
      ∧ ∀ f ∈ [exampleFunction "projects/demo/locations/us-central1/functions/b",
          exampleFunction "projects/demo/locations/us-central1/functions/a"],
          6 ≤ (Split f.Name '/').length)
    ∧ handleList exampleFormat worldListTwo demoConfig =
        ([.print (listTitle demoConfig), .print listHeader, .print listSeparator] ++
          ([exampleFunction "projects/demo/locations/us-central1/functions/b",
            exampleFunction "projects/demo/locations/us-central1/functions/a"].filterMap
              listInfo).map (fun f => Event.print (listRow exampleFormat f)),
         .returned) :=
  ⟨⟨rfl, rfl, by decide⟩,
    (handleList_output exampleFormat worldListTwo demoConfig
      [exampleFunction "projects/demo/locations/us-central1/functions/b",
        exampleFunction "projects/demo/locations/us-central1/functions/a"] none
      rfl rfl (by decide)).2.2.1 rfl (by decide)⟩

/-- C9: the trigger classification is total and prioritised: it is "HTTPS"
whenever an HTTPS trigger is present (also when an event trigger is present
too), "Event" when there is no HTTPS trigger but an event trigger, and
"Unknown" when there is neither; `handleDescribe` and `handleList` classify
every resource identically, also in the records they build. -/
theorem trigger_classification (function : CloudFunction) :
    (function.HttpsTrigger ≠ none → describeTrigger function = "HTTPS")
    ∧ (function.HttpsTrigger = none → function.EventTrigger ≠ none →
        describeTrigger function = "Event")
    ∧ (function.HttpsTrigger = none → function.EventTrigger = none →
        describeTrigger function = "Unknown")
    ∧ (describeTrigger function = "HTTPS" ∨ describeTrigger function = "Event"
        ∨ describeTrigger function = "Unknown")
    ∧ listTrigger function = describeTrigger function
    ∧ (describeInfo function).Trigger = describeTrigger function
    ∧ (∀ info : Function, listInfo function = some info →
        info.Trigger = (describeInfo function).Trigger) := by
  refine ⟨?_, ?_, ?_, ?_, rfl, rfl, ?_⟩
  · intro h; simp [describeTrigger, h]
  · intro h1 h2; simp [describeTrigger, h1, h2]
  · intro h1 h2; simp [describeTrigger, h1, h2]
  · unfold describeTrigger
    by_cases h1 : function.HttpsTrigger = none <;> by_cases h2 : function.EventTrigger = none <;>
      simp [h1, h2]
  · intro info hinfo
    unfold listInfo at hinfo
    cases hn : functionNameOf function.Name with
    | none => simp [hn] at hinfo
    | some name =>
      simp only [hn, Option.some.injEq] at hinfo
      rw [← hinfo]
      rfl

/-- Instance of C9 at a record that has both an HTTPS and an event trigger. -/
theorem trigger_classification_witness :
    exampleBothTriggers.HttpsTrigger ≠ none
    ∧ describeTrigger exampleBothTriggers = "HTTPS" :=
  ⟨by decide, (trigger_classification exampleBothTriggers).1 (by decide)⟩

end Gcptool
